import Mathlib

/-!
Verification of the PushProx rendezvous coordinator (`src/proxy/coordinator.go`).

The coordinator pairs inbound scrape requests with polling clients through
unbuffered Go channels.  We give a shallow embedding:

* Go `map[string]V` becomes an association list `List (String × V)` with
  lookup (`alookup`), insert-or-replace (`aset`) and delete (`aerase`),
  matching Go map semantics (one binding per key).
* `http.Header` becomes a flat `List (String × String)` of key/value pairs;
  `Header.Add` appends, `Header.Get` returns the first value (or `""`),
  `Header.Del` removes every pair with the key.  The keys the coordinator
  uses (`Id`, `X-Prometheus-Scrape-Timeout-Seconds`) are already in
  canonical MIME form, so canonicalisation is the identity here.
* Channels are identified by a `Nat` drawn from a fresh-channel allocator
  `nextChan` in the coordinator state; the value transfer through a channel
  is modelled explicitly by the functions that use it.
* Time is `Int` (Unix seconds); `t.Before(u)` is `t < u`, `t.Add(-d)` is
  `t - d`.  A `context.Context` carried by a request is modelled by its
  cancellation flag and deadline; `Done` has fired at instant `now` iff
  the flag is set or the deadline has passed.
* The nondeterministic outcomes of Go `select` races (is a receiver ready
  before the caller's context fires? does a response arrive in time?) are
  explicit boolean/option parameters of the embedded functions.
-/

/-- Lookup in a Go-style map modelled as an association list:
the value bound to `key`, if any. -/
def alookup {α : Type} : List (String × α) → String → Option α
  | [], _ => none
  | (k, v) :: rest, key => if k = key then some v else alookup rest key

/-- Go map assignment `m[key] = v`: replace the binding of `key` if present,
otherwise add it. -/
def aset {α : Type} : List (String × α) → String → α → List (String × α)
  | [], key, v => [(key, v)]
  | (k, w) :: rest, key, v =>
      if k = key then (key, v) :: rest else (k, w) :: aset rest key v

/-- Go `delete(m, key)`: remove every binding of `key`. -/
def aerase {α : Type} (l : List (String × α)) (key : String) : List (String × α) :=
  l.filter (fun p => p.1 ≠ key)

/-- `http.Header.Add(k, v)`: append the pair to the header. -/
def headerAdd (h : List (String × String)) (k v : String) : List (String × String) :=
  h ++ [(k, v)]

/-- `http.Header.Get(k)`: first value for the key, `""` if absent. -/
def headerGet (h : List (String × String)) (k : String) : String :=
  match alookup h k with
  | some v => v
  | none => ""

/-- `http.Header.Del(k)`: remove every value for the key (the same removal
`delete` performs on a map, acting on the flat pair list). -/
def headerDel (h : List (String × String)) (k : String) : List (String × String) :=
  aerase h k

/-- An `*http.Request` as the coordinator sees it: the target hostname
(`r.URL.Hostname()`), the header, an opaque payload for everything else the
caller supplied, and the request's context (`r.Context()`), modelled by its
cancellation flag and deadline. -/
structure Request where
  hostname : String
  header : List (String × String)
  body : String
  cancelled : Bool
  deadline : Int
deriving Repr, DecidableEq

/-- `r.Context().Done()` has fired at instant `now`. -/
def Request.ctxDone (r : Request) (now : Int) : Bool :=
  r.cancelled || decide (r.deadline ≤ now)

/-- An `*http.Response` as the coordinator sees it: header plus opaque body. -/
structure Response where
  header : List (String × String)
  body : String
deriving Repr, DecidableEq

/-- The `Coordinator` struct: `waiting` maps a target FQDN to its request
channel, `responses` maps a scrape id to its response channel, `known` maps a
client FQDN to its last-contact time.  `nextChan` is the fresh-channel
allocator standing in for `make(chan ...)`. -/
structure Coordinator where
  waiting : List (String × Nat)
  responses : List (String × Nat)
  known : List (String × Int)
  nextChan : Nat
deriving Repr, DecidableEq

/-- `genId`: `id := atomic.AddInt64(&idCounter, 1)` then
`fmt.Sprintf("%d-%d-%d", time.Now().Unix(), id, os.Getpid())`.
The format renders the three integers separated by dashes; we model the
identifier by its components `(now, counter, pid)` (rendered to the header
string by `idString`) and return the post-increment counter alongside. -/
def genId (now pid idCounter : Int) : (Int × Int × Int) × Int :=
  let id := idCounter + 1
  ((now, id, pid), id)

/-- The dash-separated rendering `fmt.Sprintf("%d-%d-%d", t, i, p)` of an
identifier, used as the value of the `Id` header. -/
def idString (g : Int × Int × Int) : String :=
  toString g.1 ++ "-" ++ toString g.2.1 ++ "-" ++ toString g.2.2

/-- `getRequestChannel(fqdn)`: return the channel waiting on `fqdn`,
creating it if absent. -/
def getRequestChannel (c : Coordinator) (fqdn : String) : Nat × Coordinator :=
  match alookup c.waiting fqdn with
  | some ch => (ch, c)
  | none =>
      (c.nextChan,
       { c with waiting := aset c.waiting fqdn c.nextChan, nextChan := c.nextChan + 1 })

/-- `getResponseChannel(id)`: return the response channel for `id`,
creating it if absent. -/
def getResponseChannel (c : Coordinator) (id : String) : Nat × Coordinator :=
  match alookup c.responses id with
  | some ch => (ch, c)
  | none =>
      (c.nextChan,
       { c with responses := aset c.responses id c.nextChan, nextChan := c.nextChan + 1 })

/-- `removeResponseChannel(id)`: `delete(c.responses, id)`. -/
def removeResponseChannel (c : Coordinator) (id : String) : Coordinator :=
  { c with responses := aerase c.responses id }

/-- `addKnownClient(fqdn)`: `c.known[fqdn] = time.Now()`. -/
def addKnownClient (c : Coordinator) (now : Int) (fqdn : String) : Coordinator :=
  { c with known := aset c.known fqdn now }

/-- `KnownClients()`: the clients whose last contact `t` satisfies
`limit.Before(t)` with `limit = now - registrationTimeout` (the `expiry`
flag), read without modifying the registry.  Returned together with the
(unchanged) coordinator to make the purity of the read explicit. -/
def KnownClients (c : Coordinator) (now expiry : Int) : List String × Coordinator :=
  ((c.known.filter (fun kt => decide (now - expiry < kt.2))).map Prod.fst, c)

/-- One cycle of the `gc` loop: delete every known client whose timestamp
`ts` satisfies `ts.Before(limit)` with `limit = now - registrationTimeout`. -/
def gcStep (c : Coordinator) (now expiry : Int) : Coordinator :=
  { c with known := c.known.filter (fun kt => ¬ (kt.2 < now - expiry)) }

/-- `context.Context` error values. -/
inductive CtxErr where
  | canceled
  | deadlineExceeded
deriving Repr, DecidableEq

/-- Outcome of `DoScrape`: the first `select` lost to `ctx.Done()`
(`errNoAgent`, the `"Matching client not found"` error), the second `select`
lost to `ctx.Done()` (`errCtx`, returning `ctx.Err()`), or a response was
received (`ok`). -/
inductive DoScrapeResult where
  | errNoAgent (e : CtxErr)
  | errCtx (e : CtxErr)
  | ok (resp : Response)
deriving Repr, DecidableEq

/-- Everything `DoScrape` produces: the returned value, the request that was
delivered into the target's request channel (if the handoff happened), the
final coordinator state, and the post-call value of the global `idCounter`. -/
structure DoScrapeOut where
  result : DoScrapeResult
  sent : Option Request
  coord : Coordinator
  counter : Int
deriving Repr, DecidableEq

/-- `DoScrape(ctx, r)`.  Generate an id, add it as the `Id` header, then
`select` between `ctx.Done()` and sending the request on
`getRequestChannel(r.URL.Hostname())` — Go evaluates the channel operand of
the send case before blocking, so `getRequestChannel` runs on both branches.
On a successful handoff, look up the response channel for the id, defer its
removal, and `select` between `ctx.Done()` and receiving a response.

Race parameters: `receiverReady` is true iff some receiver takes the request
before the caller's context fires; `arrived` is the response received on the
second `select`, `none` meaning the context fired first.  `ctxErr` is the
value `ctx.Err()` would report on the losing branches. -/
def DoScrape (c : Coordinator) (idCounter now pid : Int) (r : Request)
    (receiverReady : Bool) (arrived : Option Response) (ctxErr : CtxErr) : DoScrapeOut :=
  let g := genId now pid idCounter
  let id := idString g.1
  let r' := { r with header := headerAdd r.header "Id" id }
  let c1 := (getRequestChannel c r.hostname).2
  if receiverReady then
    let c2 := (getResponseChannel c1 id).2
    match arrived with
    | some resp => ⟨.ok resp, some r', removeResponseChannel c2 id, g.2⟩
    | none => ⟨.errCtx ctxErr, some r', removeResponseChannel c2 id, g.2⟩
  else
    ⟨.errNoAgent ctxErr, none, c1, g.2⟩

/-- The receive loop of `WaitForScrapeInstruction`: take requests from the
channel one at a time; if the received request's context has already fired
(`select` on `request.Context().Done()` with a `default` branch), discard it
and receive again, otherwise return it.  `incoming` is the sequence of
requests the channel delivers; `none` means every delivered request was
expired and the loop is still blocked. -/
def waitLoop (now : Int) : List Request → Option Request
  | [] => none
  | r :: rest => if r.ctxDone now then waitLoop now rest else some r

/-- `WaitForScrapeInstruction(fqdn)`: record the client as known, get (or
create) the request channel for `fqdn`, then run the receive loop. -/
def WaitForScrapeInstruction (c : Coordinator) (now : Int) (fqdn : String)
    (incoming : List Request) : Option Request × Coordinator :=
  let c1 := addKnownClient c now fqdn
  let c2 := (getRequestChannel c1 fqdn).2
  (waitLoop now incoming, c2)

/-- Modelled from the spec: `util.GetScrapeTimeout` (package `util`, not in
`src/`) extracts the caller-specified timeout hint carried in the
`X-Prometheus-Scrape-Timeout-Seconds` header of a result submission, or
returns a default bound when the hint is absent or unreadable. -/
def GetScrapeTimeout (h : List (String × String)) : Int :=
  match (headerGet h "X-Prometheus-Scrape-Timeout-Seconds").toInt? with
  | some n => n
  | none => 10

/-- Everything `ScrapeResult` produces: the returned error (`none` means the
response was handed to a waiter), the response as delivered to the waiter (if
any), the final state of the `*http.Response` object the client passed in
(its headers are mutated in place), the timeout bound the call derived for
its wait, and the final coordinator state. -/
structure ScrapeResultOut where
  err : Option CtxErr
  delivered : Option Response
  finalResp : Response
  usedTimeout : Int
  coord : Coordinator
deriving Repr, DecidableEq

/-- `ScrapeResult(r)`.  Read the id from the `Id` header, derive a bounded
wait from the scrape-timeout hint (read before any header is removed), strip
the internal `Id` and `X-Prometheus-Scrape-Timeout-Seconds` headers, then
`select` between sending the response on `getResponseChannel(id)` and the
timeout; on timeout remove the response channel and return `ctx.Err()`
(deadline exceeded).

Race parameter: `waiterReady` is true iff a waiter receives the response
before the bounded wait elapses. -/
def ScrapeResult (c : Coordinator) (r : Response) (waiterReady : Bool) : ScrapeResultOut :=
  let id := headerGet r.header "Id"
  let timeout := GetScrapeTimeout r.header
  let h1 := headerDel r.header "Id"
  let h2 := headerDel h1 "X-Prometheus-Scrape-Timeout-Seconds"
  let r' := { r with header := h2 }
  let c1 := (getResponseChannel c id).2
  if waiterReady then
    ⟨none, some r', r', timeout, c1⟩
  else
    ⟨some .deadlineExceeded, none, r', timeout, removeResponseChannel c1 id⟩

/-! ### Association-map lemmas -/

theorem alookup_aset_self {α : Type} (l : List (String × α)) (k : String) (v : α) :
    alookup (aset l k v) k = some v := by
  induction l with
  | nil => simp [aset, alookup]
  | cons p rest ih =>
    obtain ⟨k0, w⟩ := p
    by_cases h : k0 = k
    · simp [aset, h, alookup]
    · simp [aset, h, alookup, ih]

theorem alookup_aset_ne {α : Type} (l : List (String × α)) (k k' : String) (v : α)
    (h : k' ≠ k) : alookup (aset l k v) k' = alookup l k' := by
  induction l with
  | nil => simp [aset, alookup, Ne.symm h]
  | cons p rest ih =>
    obtain ⟨k0, w⟩ := p
    by_cases hk : k0 = k
    · subst hk
      simp [aset, alookup, Ne.symm h]
    · by_cases hk' : k0 = k'
      · simp [aset, hk, alookup, hk', h]
      · simp [aset, hk, alookup, hk', ih]

theorem alookup_aerase_self {α : Type} (l : List (String × α)) (k : String) :
    alookup (aerase l k) k = none := by
  induction l with
  | nil => rfl
  | cons p rest ih =>
    obtain ⟨k0, w⟩ := p
    by_cases h : k0 = k
    · simpa [aerase, h] using ih
    · simpa [aerase, alookup, h] using ih

theorem alookup_aerase_ne {α : Type} (l : List (String × α)) (k k' : String)
    (h : k' ≠ k) : alookup (aerase l k) k' = alookup l k' := by
  induction l with
  | nil => rfl
  | cons p rest ih =>
    obtain ⟨k0, w⟩ := p
    by_cases hk : k0 = k
    · simpa [aerase, alookup, hk, Ne.symm h] using ih
    · by_cases hk' : k0 = k'
      · simp [aerase, alookup, hk, hk', h]
      · simpa [aerase, alookup, hk, hk'] using ih

theorem aerase_aerase {α : Type} (l : List (String × α)) (k : String) :
    aerase (aerase l k) k = aerase l k := by
  induction l with
  | nil => rfl
  | cons p rest ih =>
    obtain ⟨k0, w⟩ := p
    by_cases h : k0 = k
    · simp [aerase, h]
    · simp [aerase, h]

theorem aerase_of_alookup_none {α : Type} (l : List (String × α)) (k : String)
    (h : alookup l k = none) : aerase l k = l := by
  induction l with
  | nil => rfl
  | cons p rest ih =>
    obtain ⟨k0, w⟩ := p
    by_cases hk : k0 = k
    · simp [alookup, hk] at h
    · simp [alookup, hk] at h
      simp [aerase, hk] at ih ⊢
      exact ih h

/-- One binding per key: the invariant Go maps maintain by construction. -/
def keysNodup {α : Type} (l : List (String × α)) : Prop :=
  (l.map Prod.fst).Nodup

theorem mem_keys_aset {α : Type} (l : List (String × α)) (k a : String) (v : α) :
    a ∈ (aset l k v).map Prod.fst ↔ a = k ∨ a ∈ l.map Prod.fst := by
  induction l with
  | nil => simp [aset]
  | cons p rest ih =>
    obtain ⟨k0, w⟩ := p
    by_cases h : k0 = k
    · subst h
      simp [aset]
    · simp [aset, h, ih]
      tauto

theorem keysNodup_aset {α : Type} (l : List (String × α)) (k : String) (v : α)
    (h : keysNodup l) : keysNodup (aset l k v) := by
  induction l with
  | nil => simp [keysNodup, aset]
  | cons p rest ih =>
    obtain ⟨k0, w⟩ := p
    simp only [keysNodup, List.map_cons, List.nodup_cons] at h
    by_cases hk : k0 = k
    · subst hk
      simp only [keysNodup] at h ⊢
      simp [aset, List.nodup_cons] at h ⊢
      exact h
    · simp only [aset, if_neg hk, keysNodup, List.map_cons, List.nodup_cons]
      constructor
      · rw [mem_keys_aset]
        exact not_or.mpr ⟨hk, h.1⟩
      · exact ih h.2

/-! ### State-field lemmas for the coordinator operations -/

theorem getRequestChannel_responses (c : Coordinator) (fqdn : String) :
    ((getRequestChannel c fqdn).2).responses = c.responses := by
  unfold getRequestChannel
  cases alookup c.waiting fqdn <;> rfl

theorem getRequestChannel_known (c : Coordinator) (fqdn : String) :
    ((getRequestChannel c fqdn).2).known = c.known := by
  unfold getRequestChannel
  cases alookup c.waiting fqdn <;> rfl

theorem getResponseChannel_waiting (c : Coordinator) (id : String) :
    ((getResponseChannel c id).2).waiting = c.waiting := by
  unfold getResponseChannel
  cases alookup c.responses id <;> rfl

theorem removeResponseChannel_waiting (c : Coordinator) (id : String) :
    (removeResponseChannel c id).waiting = c.waiting := rfl

theorem getRequestChannel_preserves (c : Coordinator) (fqdn k : String) (ch : Nat)
    (h : alookup c.waiting k = some ch) :
    alookup ((getRequestChannel c fqdn).2).waiting k = some ch := by
  unfold getRequestChannel
  cases hl : alookup c.waiting fqdn with
  | some ch' => simpa using h
  | none =>
    by_cases hk : k = fqdn
    · rw [hk] at h
      rw [h] at hl
      exact absurd hl (by simp)
    · simpa [alookup_aset_ne _ _ _ _ hk] using h

/-! ### Claim theorems -/

/-- C5: `removeResponseSlot` is idempotent: for every identifier, calling it
any number of times — including for an identifier with no slot — is a total
operation (never faults), repeating it changes nothing further, and after any
one call the table holds no slot for that identifier. -/
theorem removeResponseChannel_idempotent (c : Coordinator) (id : String) :
    removeResponseChannel (removeResponseChannel c id) id = removeResponseChannel c id
    ∧ alookup (removeResponseChannel c id).responses id = none
    ∧ (alookup c.responses id = none → removeResponseChannel c id = c) := by
  refine ⟨?_, ?_, ?_⟩
  · simp [removeResponseChannel, aerase_aerase]
  · exact alookup_aerase_self c.responses id
  · intro h
    simp [removeResponseChannel, aerase_of_alookup_none c.responses id h]

/-- Witness for C5 at a concrete table: removing the slot for `"i"` twice
equals removing it once, the slot is gone afterwards, and removing a slot
that is absent leaves the coordinator untouched. -/
theorem removeResponseChannel_idempotent_witness :
    removeResponseChannel (removeResponseChannel ⟨[], [("i", 3)], [], 4⟩ "i") "i"
        = removeResponseChannel ⟨[], [("i", 3)], [], 4⟩ "i"
    ∧ alookup (removeResponseChannel ⟨[], [("i", 3)], [], 4⟩ "i").responses "i" = none
    ∧ removeResponseChannel (⟨[], [("i", 3)], [], 4⟩ : Coordinator) "x"
        = ⟨[], [("i", 3)], [], 4⟩ :=
  ⟨(removeResponseChannel_idempotent ⟨[], [("i", 3)], [], 4⟩ "i").1,
   (removeResponseChannel_idempotent ⟨[], [("i", 3)], [], 4⟩ "i").2.1,
   (removeResponseChannel_idempotent ⟨[], [("i", 3)], [], 4⟩ "x").2.2 (by decide)⟩

/-- Modelled from the spec's words, for comparison with `genId`: the claimed
identifier construction combines the counter with the PROCESS-START time (a
value fixed when the process starts, the same for every call in the process)
and the process identity. -/
def genId_claimed (startTime pid idCounter : Int) : (Int × Int × Int) × Int :=
  let id := idCounter + 1
  ((startTime, id, pid), id)

/-- C4 counterexample: `genId` samples `time.Now()` at each call, not the
process-start time.  In a process started at time 100 (pid 7) whose second
`genId` call runs at time 200, the code's identifier carries time component
200, while an identifier built from the process-start time would carry 100:
the construction the claim describes does not match the code. -/
theorem genId_time_component_counterexample :
    (genId 200 7 1).1 = (200, 2, 7)
    ∧ (genId_claimed 100 7 1).1 = (100, 2, 7)
    ∧ (genId 200 7 1).1 ≠ (genId_claimed 100 7 1).1 := by
  refine ⟨rfl, rfl, ?_⟩
  decide

/-- C4 (amended): `genId` returns a value unique across the lifetime of one
running process, constructed by combining a monotonically increasing
atomically incremented counter with the current time at the call and the
process identity; two calls (which necessarily observe distinct counter
values) always produce distinct identifiers, and the counter strictly
increases with each call. -/
theorem genId_unique (now1 now2 pid1 pid2 c1 c2 : Int) (h : c1 ≠ c2) :
    (genId now1 pid1 c1).1 ≠ (genId now2 pid2 c2).1
    ∧ (genId now1 pid1 c1).2 = c1 + 1
    ∧ c1 < (genId now1 pid1 c1).2
    ∧ (genId now1 pid1 c1).1 = (now1, c1 + 1, pid1) := by
  refine ⟨?_, rfl, ?_, rfl⟩
  · intro heq
    simp [genId] at heq
    omega
  · show c1 < c1 + 1
    omega

/-- Witness for C4 at concrete inputs: the first two identifiers of a process
with pid 7, generated at times 10 and 20, are distinct. -/
theorem genId_unique_witness :
    (genId 10 7 0).1 ≠ (genId 20 7 1).1
    ∧ (genId 10 7 0).2 = 0 + 1
    ∧ (0 : Int) < (genId 10 7 0).2
    ∧ (genId 10 7 0).1 = (10, 0 + 1, 7) :=
  genId_unique 10 20 7 7 0 1 (by decide)

/-- C6: when no waiter is ready for the submitted result (`waiterReady =
false`), `ScrapeResult` bounds its wait by the interval derived from the
result's scrape-timeout hint (or the default), then removes the response
slot and returns the deadline-exceeded error, leaving no slot for the
result's identifier in the response table. -/
theorem scrapeResult_no_waiter (c : Coordinator) (r : Response) :
    (ScrapeResult c r false).err = some CtxErr.deadlineExceeded
    ∧ (ScrapeResult c r false).delivered = none
    ∧ (ScrapeResult c r false).usedTimeout = GetScrapeTimeout r.header
    ∧ alookup (ScrapeResult c r false).coord.responses (headerGet r.header "Id") = none := by
  refine ⟨rfl, rfl, rfl, ?_⟩
  show alookup (aerase _ _) _ = none
  exact alookup_aerase_self _ _

/-- C7: a result delivered to a waiting caller has its coordinator-internal
metadata stripped: no `Id` pair and no `X-Prometheus-Scrape-Timeout-Seconds`
pair survives in the delivered header, lookups of both keys come back empty,
and the rest of the payload (the body) is exactly what the agent submitted. -/
theorem scrapeResult_strips_internal (c : Coordinator) (r : Response) (resp' : Response)
    (h : (ScrapeResult c r true).delivered = some resp') :
    (∀ p ∈ resp'.header, p.1 ≠ "Id" ∧ p.1 ≠ "X-Prometheus-Scrape-Timeout-Seconds")
    ∧ headerGet resp'.header "Id" = ""
    ∧ headerGet resp'.header "X-Prometheus-Scrape-Timeout-Seconds" = ""
    ∧ resp'.body = r.body := by
  have hr : resp' = { r with
      header := headerDel (headerDel r.header "Id") "X-Prometheus-Scrape-Timeout-Seconds" } := by
    simpa [ScrapeResult] using h.symm
  subst hr
  refine ⟨?_, ?_, ?_, rfl⟩
  · intro p hp
    simp only [headerDel, aerase, List.mem_filter, decide_eq_true_eq] at hp
    exact ⟨hp.1.2, hp.2⟩
  · show headerGet (aerase (aerase r.header "Id") "X-Prometheus-Scrape-Timeout-Seconds") "Id" = ""
    rw [headerGet, alookup_aerase_ne _ _ _ (by decide), alookup_aerase_self]
  · show headerGet (aerase (aerase r.header "Id") "X-Prometheus-Scrape-Timeout-Seconds")
        "X-Prometheus-Scrape-Timeout-Seconds" = ""
    rw [headerGet, alookup_aerase_self]

/-- Witness for C7 on a concrete result carrying both internal headers and a
content-type pair. -/
theorem scrapeResult_strips_internal_witness :
    (∀ p ∈ (Response.mk [("Content-Type", "text/plain")] "data").header,
        p.1 ≠ "Id" ∧ p.1 ≠ "X-Prometheus-Scrape-Timeout-Seconds")
    ∧ headerGet (Response.mk [("Content-Type", "text/plain")] "data").header "Id" = ""
    ∧ headerGet (Response.mk [("Content-Type", "text/plain")] "data").header
        "X-Prometheus-Scrape-Timeout-Seconds" = ""
    ∧ (Response.mk [("Content-Type", "text/plain")] "data").body =
        (Response.mk [("Id", "9-1-7"), ("X-Prometheus-Scrape-Timeout-Seconds", "30"),
          ("Content-Type", "text/plain")] "data").body :=
  scrapeResult_strips_internal ⟨[], [], [], 0⟩
    ⟨[("Id", "9-1-7"), ("X-Prometheus-Scrape-Timeout-Seconds", "30"),
      ("Content-Type", "text/plain")] , "data"⟩
    ⟨[("Content-Type", "text/plain")], "data"⟩ (by decide)

/-- C10: `ScrapeResult` reads the timeout hint from the original header and
then strips the internal headers from the submitted response object itself,
before attempting delivery; on the delivery-timeout path the object stays
stripped — the mutation is not rolled back when the call returns an error. -/
theorem scrapeResult_strip_not_rolled_back (c : Coordinator) (r : Response) :
    (ScrapeResult c r false).err = some CtxErr.deadlineExceeded
    ∧ (ScrapeResult c r false).finalResp =
        { r with header := headerDel (headerDel r.header "Id") "X-Prometheus-Scrape-Timeout-Seconds" }
    ∧ (ScrapeResult c r false).usedTimeout = GetScrapeTimeout r.header
    ∧ headerGet (ScrapeResult c r false).finalResp.header "Id" = "" := by
  refine ⟨rfl, rfl, rfl, ?_⟩
  show headerGet (aerase (aerase r.header "Id") "X-Prometheus-Scrape-Timeout-Seconds") "Id" = ""
  rw [headerGet, alookup_aerase_ne _ _ _ (by decide), alookup_aerase_self]

theorem waitLoop_eq_find (now : Int) (l : List Request) :
    waitLoop now l = l.find? (fun x => ! x.ctxDone now) := by
  induction l with
  | nil => rfl
  | cons r rest ih =>
    by_cases h : r.ctxDone now
    · simp [waitLoop, h, List.find?, ih]
    · simp [waitLoop, h, List.find?]

/-- C2: `WaitForScrapeInstruction` never hands an agent a request whose
context has already fired: whenever it returns a request, that request is not
cancelled and its deadline is still in the future, and the request returned
is the first delivered one whose context is still live (every earlier
delivery is discarded and the receive retried). -/
theorem waitForScrapeInstruction_live (c : Coordinator) (now : Int) (fqdn : String)
    (incoming : List Request) (r : Request) (c' : Coordinator)
    (h : WaitForScrapeInstruction c now fqdn incoming = (some r, c')) :
    r.ctxDone now = false
    ∧ r.cancelled = false
    ∧ now < r.deadline
    ∧ (WaitForScrapeInstruction c now fqdn incoming).1
        = incoming.find? (fun x => ! x.ctxDone now) := by
  have h1 : waitLoop now incoming = some r := congrArg Prod.fst h
  rw [waitLoop_eq_find] at h1
  have h2 := List.find?_some h1
  simp only [Bool.not_eq_true'] at h2
  refine ⟨h2, ?_, ?_, ?_⟩
  · simp only [Request.ctxDone, Bool.or_eq_false_iff] at h2
    exact h2.1
  · simp only [Request.ctxDone, Bool.or_eq_false_iff, decide_eq_false_iff_not] at h2
    omega
  · show waitLoop now incoming = _
    rw [waitLoop_eq_find]

/-- Witness for C2: with an expired request (deadline 5 at instant 50)
followed by a live one (deadline 100), the loop skips the expired request and
returns the live one, still live at return. -/
theorem waitForScrapeInstruction_live_witness :
    (Request.mk "t" [] "b2" false 100).ctxDone 50 = false
    ∧ (Request.mk "t" [] "b2" false 100).cancelled = false
    ∧ (50 : Int) < (Request.mk "t" [] "b2" false 100).deadline
    ∧ (WaitForScrapeInstruction ⟨[], [], [], 0⟩ 50 "t"
        [⟨"t", [], "b1", false, 5⟩, ⟨"t", [], "b2", false, 100⟩]).1
        = [(⟨"t", [], "b1", false, 5⟩ : Request), ⟨"t", [], "b2", false, 100⟩].find?
            (fun x => ! x.ctxDone 50) :=
  waitForScrapeInstruction_live ⟨[], [], [], 0⟩ 50 "t"
    [⟨"t", [], "b1", false, 5⟩, ⟨"t", [], "b2", false, 100⟩]
    ⟨"t", [], "b2", false, 100⟩
    (WaitForScrapeInstruction ⟨[], [], [], 0⟩ 50 "t"
      [⟨"t", [], "b1", false, 5⟩, ⟨"t", [], "b2", false, 100⟩]).2 (by decide)

/-- C9: `KnownClients` returns exactly the identities whose last-contact
timestamp `t` lies within the expiry window of the current time
(`now - expiry < t`, the code's `limit.Before(t)`); it is a pure read that
leaves the coordinator untouched; and the periodic `gc` sweep is what deletes
stale entries, removing exactly those with `t < now - expiry` and nothing
else. -/
theorem knownClients_alive_pure (c : Coordinator) (now expiry : Int) (k : String) :
    (k ∈ (KnownClients c now expiry).1 ↔ ∃ t, (k, t) ∈ c.known ∧ now - expiry < t)
    ∧ (KnownClients c now expiry).2 = c
    ∧ (∀ k0 t, (k0, t) ∈ (gcStep c now expiry).known ↔ (k0, t) ∈ c.known ∧ ¬ t < now - expiry) := by
  refine ⟨?_, rfl, ?_⟩
  · constructor
    · intro hk
      simp only [KnownClients, List.mem_map, List.mem_filter, decide_eq_true_eq] at hk
      obtain ⟨⟨a, b⟩, ⟨hmem, hlt⟩, hfst⟩ := hk
      exact ⟨b, by simpa [← hfst] using hmem, hlt⟩
    · rintro ⟨t, hmem, hlt⟩
      simp only [KnownClients, List.mem_map, List.mem_filter, decide_eq_true_eq]
      exact ⟨(k, t), ⟨hmem, hlt⟩, rfl⟩
  · intro k0 t
    simp [gcStep, List.mem_filter]

/-- An operation on the coordinator never removes or rebinds an existing
entry of the `waiting` (target-to-request-channel) table. -/
def preservesWaiting (f : Coordinator → Coordinator) : Prop :=
  ∀ c k ch, alookup c.waiting k = some ch → alookup (f c).waiting k = some ch

/-- C8: request-channel lifecycle.  `getRequestChannel` creates the slot for
a target lazily on first access and hands back exactly that slot; a caller
finding an existing slot gets that same slot with the state unchanged, so
repeated calls are deterministic; the table keeps at most one slot per
target; and no coordinator operation ever removes a `waiting` entry —
`getRequestChannel`, `DoScrape` and `WaitForScrapeInstruction` only preserve
or add bindings, while every other operation leaves the table identical. -/
theorem requestChannel_lifecycle :
    (∀ c fqdn, alookup c.waiting fqdn = none →
        alookup ((getRequestChannel c fqdn).2).waiting fqdn = some (getRequestChannel c fqdn).1)
    ∧ (∀ c fqdn ch, alookup c.waiting fqdn = some ch → getRequestChannel c fqdn = (ch, c))
    ∧ (∀ c fqdn, getRequestChannel (getRequestChannel c fqdn).2 fqdn
        = ((getRequestChannel c fqdn).1, (getRequestChannel c fqdn).2))
    ∧ (∀ c fqdn, keysNodup c.waiting → keysNodup ((getRequestChannel c fqdn).2).waiting)
    ∧ (∀ fqdn, preservesWaiting (fun c => (getRequestChannel c fqdn).2))
    ∧ (∀ ic now pid r rr arr e, preservesWaiting (fun c => (DoScrape c ic now pid r rr arr e).coord))
    ∧ (∀ now fqdn inc, preservesWaiting (fun c => (WaitForScrapeInstruction c now fqdn inc).2))
    ∧ (∀ c id now expiry fqdn r w,
          ((getResponseChannel c id).2).waiting = c.waiting
        ∧ (removeResponseChannel c id).waiting = c.waiting
        ∧ (addKnownClient c now fqdn).waiting = c.waiting
        ∧ (gcStep c now expiry).waiting = c.waiting
        ∧ ((KnownClients c now expiry).2).waiting = c.waiting
        ∧ ((ScrapeResult c r w).coord).waiting = c.waiting) := by
  have hresp : ∀ c id, ((getResponseChannel c id).2).waiting = c.waiting := by
    intro c id
    exact getResponseChannel_waiting c id
  refine ⟨?_, ?_, ?_, ?_, ?_, ?_, ?_, ?_⟩
  · intro c fqdn h
    simp [getRequestChannel, h, alookup_aset_self]
  · intro c fqdn ch h
    simp [getRequestChannel, h]
  · intro c fqdn
    cases h : alookup c.waiting fqdn with
    | some ch => simp [getRequestChannel, h]
    | none =>
      simp only [getRequestChannel, h]
      simp [alookup_aset_self]
  · intro c fqdn h
    cases hl : alookup c.waiting fqdn with
    | some ch => simpa [getRequestChannel, hl] using h
    | none =>
      simp only [getRequestChannel, hl]
      exact keysNodup_aset _ _ _ h
  · intro fqdn c k ch h
    exact getRequestChannel_preserves c fqdn k ch h
  · intro ic now pid r rr arr e c k ch h
    have h1 := getRequestChannel_preserves c r.hostname k ch h
    cases rr with
    | true =>
      cases arr with
      | some resp =>
        simpa [DoScrape, removeResponseChannel, getResponseChannel_waiting] using h1
      | none =>
        simpa [DoScrape, removeResponseChannel, getResponseChannel_waiting] using h1
    | false => simpa [DoScrape] using h1
  · intro now fqdn inc c k ch h
    have h1 : alookup (addKnownClient c now fqdn).waiting k = some ch := h
    simpa [WaitForScrapeInstruction] using
      getRequestChannel_preserves (addKnownClient c now fqdn) fqdn k ch h1
  · intro c id now expiry fqdn r w
    refine ⟨hresp c id, rfl, rfl, rfl, rfl, ?_⟩
    by_cases hw : w
    · simp [ScrapeResult, hw, hresp]
    · simp [ScrapeResult, hw, removeResponseChannel, hresp]

/-- Witness for C8 on a concrete coordinator: first access to target `"t"`
creates slot 0, a second access returns the same slot with the state
unchanged, and removing a response slot leaves the `waiting` binding in
place. -/
theorem requestChannel_lifecycle_witness :
    alookup ((getRequestChannel ⟨[], [], [], 0⟩ "t").2).waiting "t"
        = some (getRequestChannel ⟨[], [], [], 0⟩ "t").1
    ∧ getRequestChannel ⟨[("t", 5)], [], [], 9⟩ "t" = (5, ⟨[("t", 5)], [], [], 9⟩)
    ∧ keysNodup ((getRequestChannel ⟨[("u", 1)], [], [], 2⟩ "t").2).waiting
    ∧ alookup ((getRequestChannel ⟨[("t", 5)], [], [], 9⟩ "u").2).waiting "t" = some 5 :=
  ⟨requestChannel_lifecycle.1 ⟨[], [], [], 0⟩ "t" (by decide),
   requestChannel_lifecycle.2.1 ⟨[("t", 5)], [], [], 9⟩ "t" 5 (by decide),
   requestChannel_lifecycle.2.2.2.1 ⟨[("u", 1)], [], [], 2⟩ "t"
     (by simp [keysNodup]),
   requestChannel_lifecycle.2.2.2.2.1 "u" ⟨[("t", 5)], [], [], 9⟩ "t" 5 (by decide)⟩

/-- C3: if the caller's context fires before any receiver is ready
(`receiverReady = false`, which covers a context already cancelled at call
time), `DoScrape` returns the `"Matching client not found"` error, nothing is
handed to any agent, and the response table is untouched — in particular it
holds no slot for the freshly generated identifier.  If the context instead
fires only after the handoff (`receiverReady = true`, no response arrives),
`DoScrape` returns the context's own error, and the deferred removal still
leaves no response slot for the identifier behind. -/
theorem doScrape_cancellation (c : Coordinator) (ic now pid : Int) (r : Request)
    (e : CtxErr) (hfresh : alookup c.responses (idString (genId now pid ic).1) = none) :
    (DoScrape c ic now pid r false none e).result = .errNoAgent e
    ∧ (DoScrape c ic now pid r false none e).sent = none
    ∧ (DoScrape c ic now pid r false none e).coord.responses = c.responses
    ∧ alookup (DoScrape c ic now pid r false none e).coord.responses
        (idString (genId now pid ic).1) = none
    ∧ (DoScrape c ic now pid r true none e).result = .errCtx e
    ∧ alookup (DoScrape c ic now pid r true none e).coord.responses
        (idString (genId now pid ic).1) = none := by
  refine ⟨rfl, rfl, ?_, ?_, rfl, ?_⟩
  · show ((getRequestChannel c r.hostname).2).responses = c.responses
    exact getRequestChannel_responses c r.hostname
  · show alookup ((getRequestChannel c r.hostname).2).responses _ = none
    rw [getRequestChannel_responses]
    exact hfresh
  · show alookup (aerase _ _) _ = none
    exact alookup_aerase_self _ _

/-- Witness for C3 on an empty coordinator at time 100 (pid 7, counter 0):
the abandoned-handoff call fails with the no-matching-client error and leaves
the response table empty, and the post-handoff cancellation path removes its
slot again. -/
theorem doScrape_cancellation_witness :
    (DoScrape ⟨[], [], [], 0⟩ 0 100 7 ⟨"t", [], "b", false, 90⟩ false none .canceled).result
        = .errNoAgent .canceled
    ∧ (DoScrape ⟨[], [], [], 0⟩ 0 100 7 ⟨"t", [], "b", false, 90⟩ false none .canceled).sent = none
    ∧ (DoScrape ⟨[], [], [], 0⟩ 0 100 7 ⟨"t", [], "b", false, 90⟩ false none
        .canceled).coord.responses = (⟨[], [], [], 0⟩ : Coordinator).responses
    ∧ alookup (DoScrape ⟨[], [], [], 0⟩ 0 100 7 ⟨"t", [], "b", false, 90⟩ false none
        .canceled).coord.responses (idString (genId 100 7 0).1) = none
    ∧ (DoScrape ⟨[], [], [], 0⟩ 0 100 7 ⟨"t", [], "b", false, 90⟩ true none .canceled).result
        = .errCtx .canceled
    ∧ alookup (DoScrape ⟨[], [], [], 0⟩ 0 100 7 ⟨"t", [], "b", false, 90⟩ true none
        .canceled).coord.responses (idString (genId 100 7 0).1) = none :=
  doScrape_cancellation ⟨[], [], [], 0⟩ 0 100 7 ⟨"t", [], "b", false, 90⟩ .canceled rfl

/-- C1: a submission paired with a concurrent claim for the same target hands
over exactly one request: the request `DoScrape` delivers into the target's
channel carries the caller's payload unchanged (hostname, body, context)
with the freshly generated identifier appended as the `Id` header, and a
`WaitForScrapeInstruction` receiving it (its context still live) returns
exactly that request — nothing is duplicated and nothing is lost. -/
theorem doScrape_claim_handoff (c c2 : Coordinator) (ic now pid : Int) (r : Request)
    (resp : Response) (e : CtxErr) (hlive : r.ctxDone now = false) :
    ∃ r', (DoScrape c ic now pid r true (some resp) e).sent = some r'
      ∧ (WaitForScrapeInstruction c2 now r.hostname [r']).1 = some r'
      ∧ r'.header = r.header ++ [("Id", idString (genId now pid ic).1)]
      ∧ r'.hostname = r.hostname ∧ r'.body = r.body
      ∧ r'.cancelled = r.cancelled ∧ r'.deadline = r.deadline
      ∧ (DoScrape c ic now pid r true (some resp) e).result = .ok resp := by
  refine ⟨{ r with header := headerAdd r.header "Id" (idString (genId now pid ic).1) },
    rfl, ?_, rfl, rfl, rfl, rfl, rfl, rfl⟩
  have hd : Request.ctxDone
      { r with header := headerAdd r.header "Id" (idString (genId now pid ic).1) } now
      = r.ctxDone now := rfl
  simp [WaitForScrapeInstruction, waitLoop, hd, hlive]

/-- Witness for C1: whole-pipeline handoff at time 100 for a live request
(deadline 200) on target `"t"`. -/
theorem doScrape_claim_handoff_witness :
    ∃ r', (DoScrape ⟨[], [], [], 0⟩ 0 100 7 ⟨"t", [("A", "a")], "b", false, 200⟩ true
          (some ⟨[], "res"⟩) .canceled).sent = some r'
      ∧ (WaitForScrapeInstruction ⟨[], [], [], 0⟩ 100
          (Request.mk "t" [("A", "a")] "b" false 200).hostname [r']).1 = some r'
      ∧ r'.header = (Request.mk "t" [("A", "a")] "b" false 200).header
          ++ [("Id", idString (genId 100 7 0).1)]
      ∧ r'.hostname = (Request.mk "t" [("A", "a")] "b" false 200).hostname
      ∧ r'.body = (Request.mk "t" [("A", "a")] "b" false 200).body
      ∧ r'.cancelled = (Request.mk "t" [("A", "a")] "b" false 200).cancelled
      ∧ r'.deadline = (Request.mk "t" [("A", "a")] "b" false 200).deadline
      ∧ (DoScrape ⟨[], [], [], 0⟩ 0 100 7 ⟨"t", [("A", "a")], "b", false, 200⟩ true
          (some ⟨[], "res"⟩) .canceled).result = .ok ⟨[], "res"⟩ :=
  doScrape_claim_handoff ⟨[], [], [], 0⟩ ⟨[], [], [], 0⟩ 0 100 7
    ⟨"t", [("A", "a")], "b", false, 200⟩ ⟨[], "res"⟩ .canceled (by decide)
